import Mathlib

/-!
Shallow embedding of the halcyon_log asynchronous logging core
(FixedBuffer, LogStream commit, AsyncLogging producer step and writer
drain, LogFile / LogFileManager, compression codec, init / uninit
lifecycle), together with theorems settling the specification claims.

Bytes are modelled as natural numbers; byte regions as lists.  Machine
counters that can overflow (the uint32 cumulative log length) are
tracked modulo 2^32.
-/

namespace HalcyonLog

/-- Capacity of the per-record staging buffer (log_stream.h, kSmallBuffer). -/
def kSmallBuffer : Nat := 4000

/-- Capacity of the sink-side batching buffer (log_stream.h, kLargeBuffer). -/
def kLargeBuffer : Nat := 4000 * 1000

/-- Model of FixedBuffer<SIZE>: the template size parameter becomes the
field `cap`, the region `data_` plus cursor `cur_` become the list of
bytes written so far (the cursor is its length). -/
structure FixedBuffer where
  cap : Nat
  data : List Nat
deriving DecidableEq, Repr

/-- Model of FixedBuffer::length(): bytes written so far. -/
def FixedBuffer.length (b : FixedBuffer) : Nat :=
  b.data.length

/-- Model of FixedBuffer::avail(): remaining room, end() - cur_. -/
def FixedBuffer.avail (b : FixedBuffer) : Nat :=
  b.cap - b.data.length

/-- Model of FixedBuffer::append(buf, len): the source copies the len
bytes only when avail() > len (strict comparison); otherwise the call
leaves the buffer untouched. -/
def FixedBuffer.append (b : FixedBuffer) (buf : List Nat) : FixedBuffer :=
  if b.avail > buf.length then { b with data := b.data ++ buf } else b

/-- Model of FixedBuffer::reset(): cursor back to the start. -/
def FixedBuffer.reset (b : FixedBuffer) : FixedBuffer :=
  { b with data := [] }

/-- Model of AsyncLogging::maxLogSize(): clamp of FLAGS_max_log_size,
`(FLAGS_max_log_size > 0 && FLAGS_max_log_size < 4096 ? FLAGS_max_log_size : 1)`. -/
def AsyncLogging.maxLogSize (flagsMaxLogSize : Nat) : Nat :=
  if 0 < flagsMaxLogSize ∧ flagsMaxLogSize < 4096 then flagsMaxLogSize else 1

/-- Model of LogFileManager::maxLogSize(): clamp of the configured
max_size_, `(max_size_ > 0 && max_size_ < 4096) ? max_size_ : 1`. -/
def LogFileManager.maxLogSize (maxSize : Nat) : Nat :=
  if 0 < maxSize ∧ maxSize < 4096 then maxSize else 1

/-- Model of the default codec of compress_opt.cpp (neither USE_HALCYON_LZ4
nor USE_HALCYON_ZSTD defined): `dst = src.data(); return true;`.
Assigning the raw character pointer to a std::string copies bytes only up
to the first NUL, so the model keeps the longest NUL-free head of the
input.  The Bool is the returned status. -/
def compress (src : List Nat) : Bool × List Nat :=
  (true, src.takeWhile (fun b => b != 0))

/-- Model of the default-codec decompress of compress_opt.cpp, identical
pointer assignment `dst = src.data(); return true;`. -/
def decompress (src : List Nat) : Bool × List Nat :=
  (true, src.takeWhile (fun b => b != 0))

/-- Locked state of AsyncLogging (async_logging.h): active buffer
currentBuffer_, spare nextBuffer_ (a unique_ptr, possibly null), the
hand-off vector buffers_, and the uint32 cumulative counter
curLogLenght_ (spelled as in the source). -/
structure AsyncState where
  currentBuffer : FixedBuffer
  nextBuffer : Option FixedBuffer
  buffers : List FixedBuffer
  curLogLenght : Nat
deriving DecidableEq, Repr

/-- State of AsyncLogging right after construction: both buffers freshly
allocated Large buffers, empty hand-off vector, zero counter. -/
def asyncInit : AsyncState :=
  { currentBuffer := { cap := kLargeBuffer, data := [] }
    nextBuffer := some { cap := kLargeBuffer, data := [] }
    buffers := []
    curLogLenght := 0 }

/-- Model of AsyncLogging::append(logline, len), the body executed under
the mutex.  If the active buffer has avail() <= len, or the MiB
threshold curLogLenght_ >> 20 >= maxLogSize() fired, the active buffer
is pushed onto buffers_ and replaced by nextBuffer_ (or a fresh Large
buffer when nextBuffer_ is null); then the line is appended to the
active buffer and the uint32 counter advanced. -/
def AsyncLogging.append (flagsMaxLogSize : Nat) (s : AsyncState)
    (logline : List Nat) : AsyncState :=
  let thresholdFired := s.curLogLenght >>> 20 ≥ AsyncLogging.maxLogSize flagsMaxLogSize
  let s1 :=
    if s.currentBuffer.avail ≤ logline.length ∨ thresholdFired then
      { s with
        curLogLenght := if thresholdFired then 0 else s.curLogLenght
        buffers := s.buffers ++ [s.currentBuffer]
        currentBuffer :=
          match s.nextBuffer with
          | some b => b
          | none => { cap := kLargeBuffer, data := [] }
        nextBuffer := none }
    else s
  { s1 with
    currentBuffer := s1.currentBuffer.append logline
    curLogLenght := (s1.curLogLenght + logline.length % 2 ^ 32) % 2 ^ 32 }

/-- Format of the drop notice emitted by AsyncLogging::threadFunc via
snprintf("Dropped log messages at %s, %zd larger buffers\n", time, k). -/
def noticeLine (strTime : String) (k : Nat) : String :=
  "Dropped log messages at " ++ strTime ++ ", " ++ Nat.repr k ++ " larger buffers\n"

/-- Model of the drain phase of one AsyncLogging::threadFunc iteration,
acting on the swapped-out buffersToWrite (each buffer given by its
content, as a string).  Returns the lines put on stderr and the chunks
appended through the LogFileManager, in order.  When more than 25
buffers were drained the notice is written to stderr and to the file,
the batch is cut to its first two buffers, and those are written;
otherwise every drained buffer is written. -/
def writerDrain (strTime : String) (buffersToWrite : List String) :
    List String × List String :=
  if buffersToWrite.length > 25 then
    let msg := noticeLine strTime (buffersToWrite.length - 2)
    ([msg], msg :: buffersToWrite.take 2)
  else
    ([], buffersToWrite)

/-- Model of LogFile: the FILE* handle collapses to an open flag, plus
the written_bytes_ counter. -/
structure LogFile where
  fpOpen : Bool
  written_bytes : Nat
deriving DecidableEq, Repr

/-- Model of the retry loop inside LogFile::append.  The stream is an
oracle: w i gives the byte count returned by the i-th fwrite call
(clamped to the remaining request, as fwrite never writes more than
asked) and e i whether ferror is set after it.  The loop body mirrors
the source: a zero-byte write with ferror set breaks; a zero-byte write
without error retries (the source loops forever there, which fuel
exhaustion models as none); otherwise the counters advance. -/
def LogFile.writeLoop (w : Nat → Nat) (e : Nat → Bool) :
    Nat → Nat → Nat → Nat → Option Nat
  | 0, _, _, _ => none
  | fuel + 1, i, n, remain =>
    if remain = 0 then some n
    else
      let x := min (w i) remain
      if x = 0 ∧ e i then some n
      else LogFile.writeLoop w e fuel (i + 1) (n + x) (remain - x)

/-- Model of LogFile::append(logline): a null handle returns at once;
otherwise the first write happens, the retry loop runs, and afterwards
written_bytes_ is increased by the full requested length regardless of
how many bytes the stream actually accepted. -/
def LogFile.append (w : Nat → Nat) (e : Nat → Bool) (fuel : Nat)
    (f : LogFile) (len : Nat) : Option LogFile :=
  if f.fpOpen = false then some f
  else
    let n0 := min (w 0) len
    match LogFile.writeLoop w e fuel 1 n0 (len - n0) with
    | some _ => some { f with written_bytes := f.written_bytes + len }
    | none => none

/-- State of LogFileManager relevant to rotation: the retained filename
list names_ (files abstracted to numeric identifiers, oldest first), the
counter cur_file_count_, and the two timestamps set by rollFile. -/
structure ManagerState where
  names : List Nat
  curFileCount : Nat
  startOfTime : Nat
  lastFlush : Nat
deriving DecidableEq, Repr

/-- Model of the eviction loop of LogFileManager::rollFile:
`while (cur_file_count_ >= max_file_) { removeFile(names_.front()); names_.pop_front(); --cur_file_count_; }`.
Calling front() on an empty deque is undefined behaviour, modelled as
none. -/
def evictLoop (maxFile : Nat) : List Nat → Nat → Option (List Nat × Nat)
  | [], count => if maxFile ≤ count then none else some ([], count)
  | nm :: rest, count =>
    if maxFile ≤ count then evictLoop maxFile rest (count - 1)
    else some (nm :: rest, count)

/-- Number of seconds in a day (log_file.cpp, kDayOfSeconds). -/
def kDayOfSeconds : Nat := 24 * 60 * 60

/-- Model of LogFileManager::rollFile(): evict oldest files while the
count is at or above max_file_, then register the new filename, bump the
count and refresh the timestamps.  The filename produced by
genLogFileName is abstracted to the identifier newName. -/
def rollFile (maxFile now : Nat) (s : ManagerState) (newName : Nat) :
    Option ManagerState :=
  match evictLoop maxFile s.names s.curFileCount with
  | none => none
  | some (ns, c) =>
    some { names := ns ++ [newName]
           curFileCount := c + 1
           startOfTime := now / kDayOfSeconds * kDayOfSeconds
           lastFlush := now }

/-- Kinds of output function installable through Logger::setOutput:
the initial defaultOutput (which writes nothing, its fwrite being
commented out) or asyncOutput installed by initLog. -/
inductive OutputFunc where
  | defaultOutput
  | asyncOutput
deriving DecidableEq, Repr

/-- Process-wide logging state: the static shared_ptr g_asyncLog and the
installed output function g_output. -/
structure GlobalState where
  gAsyncLog : Option AsyncState
  gOutput : OutputFunc
deriving DecidableEq, Repr

/-- Process state before initLog: null sink, default output. -/
def globalInit : GlobalState :=
  { gAsyncLog := none, gOutput := OutputFunc.defaultOutput }

/-- Model of halcyon::initLog: when the sink is null, construct it,
start the writer thread and install asyncOutput; otherwise do nothing. -/
def initLog (g : GlobalState) : GlobalState :=
  if g.gAsyncLog = none then
    { gAsyncLog := some asyncInit, gOutput := OutputFunc.asyncOutput }
  else g

/-- Model of halcyon::uninitLog: when the sink is non-null, stop it and
reset the shared_ptr.  The source does not reinstall defaultOutput, so
g_output keeps pointing at asyncOutput. -/
def uninitLog (g : GlobalState) : GlobalState :=
  if g.gAsyncLog ≠ none then { g with gAsyncLog := none } else g

/-- Model of the commit step of Logger::~Logger: the destructor calls
g_output(buf.data(), buf.length()).  defaultOutput discards the bytes;
asyncOutput executes g_asyncLog->append(msg, len), which dereferences
the shared_ptr — when it is null that is a null-pointer dereference,
modelled as none (the process crashes). -/
def loggerCommit (flagsMaxLogSize : Nat) (g : GlobalState) (msg : List Nat) :
    Option GlobalState :=
  match g.gOutput with
  | OutputFunc.defaultOutput => some g
  | OutputFunc.asyncOutput =>
    match g.gAsyncLog with
    | none => none
    | some s =>
      some { g with gAsyncLog := some (AsyncLogging.append flagsMaxLogSize s msg) }

/-- Model of a whole record build: the LogStream insertions of one
Logger (prefix stamp, payload pieces, the finish suffix) each call
FixedBuffer.append on the Small buffer; the committed bytes are the
buffer content at destructor time. -/
def commitBuffer (chunks : List (List Nat)) : FixedBuffer :=
  chunks.foldl FixedBuffer.append { cap := kSmallBuffer, data := [] }

/-- Helper: FixedBuffer.append keeps the capacity field. -/
theorem FixedBuffer.cap_append (b : FixedBuffer) (src : List Nat) :
    (b.append src).cap = b.cap := by
  unfold FixedBuffer.append
  split <;> rfl

/-- Helper: FixedBuffer.append keeps the written length strictly below
the capacity. -/
theorem FixedBuffer.length_append_lt (b : FixedBuffer) (src : List Nat)
    (h : b.data.length < b.cap) : (b.append src).data.length < b.cap := by
  unfold FixedBuffer.append FixedBuffer.avail
  split
  · next hgt => simpa using by omega
  · exact h

/-- Helper: folding FixedBuffer.append over any chunk list keeps the
written length strictly below the capacity. -/
theorem foldl_append_length_lt (chunks : List (List Nat)) :
    ∀ b : FixedBuffer, b.data.length < b.cap →
      (chunks.foldl FixedBuffer.append b).data.length <
        (chunks.foldl FixedBuffer.append b).cap := by
  induction chunks with
  | nil => intro b h; exact h
  | cons c rest ih =>
    intro b h
    refine ih (b.append c) ?_
    rw [FixedBuffer.cap_append]
    exact FixedBuffer.length_append_lt b c h

/-- Helper: folding FixedBuffer.append keeps the capacity field. -/
theorem foldl_append_cap (chunks : List (List Nat)) :
    ∀ b : FixedBuffer, (chunks.foldl FixedBuffer.append b).cap = b.cap := by
  induction chunks with
  | nil => intro b; rfl
  | cons c rest ih =>
    intro b
    rw [List.foldl_cons, ih (b.append c), FixedBuffer.cap_append]

/-- Claim C2, counterexample: the effective per-file cap is not
min(max(c, 1), 4095) for every configured c — at c = 4096 both
AsyncLogging::maxLogSize and LogFileManager::maxLogSize yield 1 while
the claimed formula yields 4095. -/
theorem claim_C2_cex :
    ¬ (∀ c : Nat,
        AsyncLogging.maxLogSize c = min (max c 1) 4095 ∧
        LogFileManager.maxLogSize c = min (max c 1) 4095) := by
  intro h
  exact absurd (h 4096).1 (by decide)

/-- Claim C2, amended: for every configured per-file size cap c, both
rotation triggers use the effective cap c itself when 1 ≤ c ≤ 4095, and
fall back to 1 for every out-of-range value (0 as well as every
c ≥ 4096). -/
theorem claim_C2_maxLogSize_clamp (c : Nat) :
    AsyncLogging.maxLogSize c = (if 1 ≤ c ∧ c ≤ 4095 then c else 1) ∧
    LogFileManager.maxLogSize c = (if 1 ≤ c ∧ c ≤ 4095 then c else 1) := by
  unfold AsyncLogging.maxLogSize LogFileManager.maxLogSize
  constructor <;> (split <;> split <;> first | rfl | omega)

/-- Claim C3, counterexample: append(src, n) with available = n is not
copied — a buffer of capacity 3 holding 0 bytes has available = 3, yet
appending 3 bytes leaves it unchanged, refuting the claimed
`available ≥ n implies copy` contract. -/
theorem claim_C3_cex :
    ¬ (∀ (b : FixedBuffer) (src : List Nat),
        src.length ≤ b.avail →
        (FixedBuffer.append b src).data = b.data ++ src) := by
  intro h
  have h3 := h { cap := 3, data := [] } [7, 7, 7] (by decide)
  exact absurd h3 (by decide)

/-- Claim C3, amended: append(src, n) copies the n bytes and advances
the cursor exactly when available > n (strictly); whenever
available ≤ n — including available = n — the buffer is completely
unchanged; the operation never copies a strict prefix of src and never
changes the capacity. -/
theorem claim_C3_append_all_or_nothing (b : FixedBuffer) (src : List Nat) :
    (b.append src).cap = b.cap ∧
    (b.avail ≤ src.length → b.append src = b) ∧
    (src.length < b.avail →
      (b.append src).data = b.data ++ src ∧
      (b.append src).data.length = b.data.length + src.length) := by
  refine ⟨FixedBuffer.cap_append b src, ?_, ?_⟩
  · intro hle
    unfold FixedBuffer.append
    rw [if_neg (by omega)]
  · intro hlt
    unfold FixedBuffer.append
    rw [if_pos (by omega)]
    simp

/-- Claim C3, witness: a buffer of capacity 4 holding one byte has
available = 3 > 2, so appending two bytes stores both. -/
theorem claim_C3_witness :
    ([2, 3] : List Nat).length < ({ cap := 4, data := [1] } : FixedBuffer).avail ∧
    (FixedBuffer.append { cap := 4, data := [1] } [2, 3]).data = [1] ++ [2, 3] := by
  refine ⟨by decide, ?_⟩
  exact ((claim_C3_append_all_or_nothing { cap := 4, data := [1] } [2, 3]).2.2
    (by decide)).1

/-- Claim C4, code bug witnessed: with the identity codec the source
assigns the raw pointer (`dst = src.data()`), so the byte sequence
[97, 0, 98] ("a", NUL, "b") compresses to just [97]; the round trip
returns [97] and not the original input.  Both calls still report
success. -/
theorem claim_C4_identity_truncates_at_nul :
    compress [97, 0, 98] = (true, [97]) ∧
    decompress (compress [97, 0, 98]).2 = (true, [97]) ∧
    (decompress (compress [97, 0, 98]).2).2 ≠ [97, 0, 98] := by
  decide

/-- Claim C7, counterexample: a record of 5038 serialized bytes (28-byte
prefix, 5000-byte payload insertion, 10-byte suffix) commits 38 bytes,
not kSmallBuffer = 4000 — the oversized insertion is dropped whole, so
the committed length does not equal the Small capacity. -/
theorem claim_C7_cex :
    ¬ (∀ chunks : List (List Nat),
        kSmallBuffer < (chunks.map List.length).sum →
        (commitBuffer chunks).data.length = kSmallBuffer) := by
  intro h
  have h38 := h [List.replicate 28 65, List.replicate 5000 66, List.replicate 10 67]
    (by norm_num [kSmallBuffer])
  rw [show commitBuffer
        [List.replicate 28 65, List.replicate 5000 66, List.replicate 10 67] =
      { cap := kSmallBuffer,
        data := List.replicate 28 65 ++ List.replicate 10 67 } from by
    norm_num [commitBuffer, FixedBuffer.append, FixedBuffer.avail, kSmallBuffer]] at h38
  norm_num [kSmallBuffer] at h38

/-- Claim C7, amended: the committed bytes of every record are truncated
at insertion granularity — each stream insertion that does not fit
strictly within the remaining space is dropped whole — so the committed
length is always strictly below the Small capacity 4000, and in
particular never equals it. -/
theorem claim_C7_commit_below_capacity (chunks : List (List Nat)) :
    (commitBuffer chunks).data.length < kSmallBuffer ∧
    (commitBuffer chunks).data.length ≠ kSmallBuffer := by
  have h := foldl_append_length_lt chunks { cap := kSmallBuffer, data := [] }
    (by simp [kSmallBuffer])
  rw [foldl_append_cap chunks { cap := kSmallBuffer, data := [] }] at h
  exact ⟨h, Nat.ne_of_lt h⟩

/-- Claim C5, counterexample: the hand-off queue can receive a buffer of
length 0 — in the state where the uint32 counter has reached
10 MiB (10485760 bytes, the default FLAGS_max_log_size threshold) while
the active buffer is still empty (the writer timeout swap installs an
empty spare without touching the counter), the next producer append
fires the MiB-threshold branch and pushes the empty active buffer into
buffers_. -/
theorem claim_C5_cex :
    ¬ (∀ b ∈ (AsyncLogging.append 10
          { currentBuffer := { cap := kLargeBuffer, data := [] }
            nextBuffer := some { cap := kLargeBuffer, data := [] }
            buffers := []
            curLogLenght := 10485760 } [1]).buffers,
        0 < b.data.length) := by
  decide

/-- Claim C5, amended: every buffer pushed into the hand-off queue by
the producer buffer-full branch (avail() <= len) during an append
shorter than the capacity of the active buffer (the sink instantiates the
capacity at kLargeBuffer) has length strictly greater than 0; only
pushes of an untouched active buffer caused solely by the MiB-threshold
branch, appends of at least the capacity, or the writer timeout swap
can enqueue an empty buffer. -/
theorem claim_C5_full_push_nonempty (flagsMax : Nat) (s : AsyncState)
    (line : List Nat)
    (hlen : line.length < s.currentBuffer.cap)
    (hfull : s.currentBuffer.avail ≤ line.length) :
    (AsyncLogging.append flagsMax s line).buffers = s.buffers ++ [s.currentBuffer] ∧
    0 < s.currentBuffer.data.length := by
  constructor
  · simp only [AsyncLogging.append, if_pos (Or.inl hfull)]
  · unfold FixedBuffer.avail at hfull
    omega

/-- Claim C5, witness: an active buffer of capacity 4 holding 3 bytes
has avail() = 1, so a three-byte append pushes it; it is nonempty. -/
theorem claim_C5_witness :
    (AsyncLogging.append 10
        { currentBuffer := { cap := 4, data := [1, 2, 3] }
          nextBuffer := none
          buffers := []
          curLogLenght := 0 } [7, 8, 9]).buffers =
      [] ++ [{ cap := 4, data := [1, 2, 3] }] ∧
    0 < ([1, 2, 3] : List Nat).length := by
  exact claim_C5_full_push_nonempty 10
    { currentBuffer := { cap := 4, data := [1, 2, 3] }
      nextBuffer := none
      buffers := []
      curLogLenght := 0 } [7, 8, 9] (by decide) (by decide)

/-- Claim C9, confirmed: for every producer append of fewer than
kLargeBuffer bytes, under the sink invariant that the spare nextBuffer_
is an empty Large buffer when present, all bytes end up in the active
buffer — when the rotation branch fires the new active buffer receives
exactly the line, otherwise the line is appended behind the existing
content; no partial copy can happen. -/
theorem claim_C9_append_stores_all (flagsMax : Nat) (s : AsyncState)
    (line : List Nat)
    (hnext : ∀ b, s.nextBuffer = some b → b.cap = kLargeBuffer ∧ b.data = [])
    (hlen : line.length < kLargeBuffer) :
    (AsyncLogging.append flagsMax s line).currentBuffer.data =
      (if s.currentBuffer.avail ≤ line.length ∨
          s.curLogLenght >>> 20 ≥ AsyncLogging.maxLogSize flagsMax
        then ([] : List Nat) else s.currentBuffer.data) ++ line := by
  by_cases hpush : s.currentBuffer.avail ≤ line.length ∨
      s.curLogLenght >>> 20 ≥ AsyncLogging.maxLogSize flagsMax
  · rw [if_pos hpush]
    simp only [AsyncLogging.append, if_pos hpush]
    cases hnb : s.nextBuffer with
    | none =>
      simp only [hnb, FixedBuffer.append, FixedBuffer.avail]
      rw [if_pos (by simpa using hlen)]
    | some b =>
      obtain ⟨hbcap, hbdata⟩ := hnext b hnb
      simp only [hnb, FixedBuffer.append, FixedBuffer.avail, hbcap, hbdata]
      rw [if_pos (by simpa using hlen)]
  · rw [if_neg hpush]
    simp only [AsyncLogging.append, if_neg hpush]
    push_neg at hpush
    obtain ⟨h1, _⟩ := hpush
    simp only [FixedBuffer.avail] at h1
    simp only [FixedBuffer.append, FixedBuffer.avail]
    rw [if_pos (by omega)]

/-- Claim C9, witness: appending two bytes to an active buffer holding
two bytes (no rotation branch fires) stores both bytes behind the
existing content. -/
theorem claim_C9_witness :
    (AsyncLogging.append 10
        { currentBuffer := { cap := kLargeBuffer, data := [1, 2] }
          nextBuffer := some { cap := kLargeBuffer, data := [] }
          buffers := []
          curLogLenght := 0 } [3, 4]).currentBuffer.data = [1, 2] ++ [3, 4] := by
  have h := claim_C9_append_stores_all 10
    { currentBuffer := { cap := kLargeBuffer, data := [1, 2] }
      nextBuffer := some { cap := kLargeBuffer, data := [] }
      buffers := []
      curLogLenght := 0 } [3, 4]
    (by intro b hb; exact ⟨congrArg FixedBuffer.cap (Option.some.inj hb).symm ▸ rfl,
      (Option.some.inj hb).symm ▸ rfl⟩)
    (by norm_num [kLargeBuffer])
  rw [h]
  norm_num [FixedBuffer.avail, AsyncLogging.maxLogSize, kLargeBuffer,
    Nat.zero_shiftRight]

/-- Claim C6, confirmed: whenever the drained batch holds more than 25
buffers, exactly one notice line carrying the batch size minus 2 goes to
the error stream, the same line followed by exactly the first two
buffers goes through the FileManager, and every later buffer of the
batch is discarded. -/
theorem claim_C6_drop_excess (strTime : String) (bs : List String)
    (h : 25 < bs.length) :
    writerDrain strTime bs =
      ([noticeLine strTime (bs.length - 2)],
        noticeLine strTime (bs.length - 2) :: bs.take 2) := by
  unfold writerDrain
  rw [if_pos h]

/-- Claim C6, witness: a batch of 26 one-byte buffers yields the notice
mentioning 24 dropped buffers and retains exactly the first two. -/
theorem claim_C6_witness :
    writerDrain ("T") (List.replicate 26 ("x")) =
      ([noticeLine ("T") 24], noticeLine ("T") 24 :: [("x"), ("x")]) := by
  have h := claim_C6_drop_excess ("T") (List.replicate 26 ("x")) (by simp)
  simpa using h

/-- Helper: with a positive max_file_ and the counter equal to the list
length, the eviction loop of rollFile terminates and leaves strictly
fewer than max_file_ retained files, with the counter still matching. -/
theorem evictLoop_spec (maxFile : Nat) (h1 : 1 ≤ maxFile) :
    ∀ (names : List Nat) (count : Nat), count = names.length →
      ∃ r, evictLoop maxFile names count = some r ∧
        r.2 = r.1.length ∧ r.2 < maxFile := by
  intro names
  induction names with
  | nil =>
    intro count hc
    subst hc
    refine ⟨([], 0), ?_, rfl, h1⟩
    simp only [evictLoop, List.length_nil]
    rw [if_neg (by omega)]
  | cons nm rest ih =>
    intro count hc
    subst hc
    simp only [evictLoop, List.length_cons]
    by_cases hge : maxFile ≤ rest.length + 1
    · rw [if_pos hge]
      have hrec := ih rest.length rfl
      simpa using hrec
    · rw [if_neg hge]
      exact ⟨(nm :: rest, rest.length + 1), rfl, by simp, by omega⟩

/-- Claim C8, counterexample: the retained-file bound does not hold for
every value of max_files — with max_files = 0 the eviction loop of
rollFile runs with cur_file_count_ >= 0 forever, calling front() on the
emptied deque (undefined behaviour, modelled as none), so the roll never
completes; the concrete instance is an empty manager state rolling its
first file. -/
theorem claim_C8_cex :
    ¬ (∀ (maxFile now nm : Nat) (s : ManagerState),
        s.curFileCount = s.names.length →
        rollFile maxFile now s nm ≠ none ∧
        ∀ s2, rollFile maxFile now s nm = some s2 → s2.curFileCount ≤ maxFile) := by
  intro h
  have h0 := (h 0 0 1
    { names := [], curFileCount := 0, startOfTime := 0, lastFlush := 0 } rfl).1
  exact h0 rfl

/-- Claim C8, amended: for every max_files ≥ 1, rollFile first deletes
the oldest retained file while the retained count is at least max_files
and only then registers the new file, so the roll completes and the new
state satisfies retained_file_count ≤ max_files (and the counter still
equals the list length); with max_files = 0 the eviction loop pops from
an empty deque instead. -/
theorem claim_C8_roll_keeps_bound (maxFile now nm : Nat) (s : ManagerState)
    (h1 : 1 ≤ maxFile) (hinv : s.curFileCount = s.names.length) :
    (rollFile maxFile now s nm).isSome = true ∧
    ∀ s2, rollFile maxFile now s nm = some s2 →
      s2.curFileCount ≤ maxFile ∧ s2.curFileCount = s2.names.length := by
  obtain ⟨⟨r, c⟩, heq, hlen, hlt⟩ := evictLoop_spec maxFile h1 s.names s.curFileCount hinv
  constructor
  · simp [rollFile, heq]
  · intro s2 h2
    simp only [rollFile, heq, Option.some.injEq] at h2
    subst h2
    dsimp only at hlen hlt
    refine ⟨?_, ?_⟩
    · show c + 1 ≤ maxFile
      omega
    · show c + 1 = (r ++ [nm]).length
      simp [hlen]

/-- Claim C8, witness: with max_files = 2 a manager holding three files
rolls successfully, evicting two and retaining the bound. -/
theorem claim_C8_witness :
    (rollFile 2 100000
        { names := [7, 8, 9], curFileCount := 3, startOfTime := 0, lastFlush := 0 }
        10).isSome = true ∧
    ((⟨[9, 10], 2, 86400, 100000⟩ : ManagerState)).curFileCount ≤ 2 := by
  have h := claim_C8_roll_keeps_bound 2 100000 10
    { names := [7, 8, 9], curFileCount := 3, startOfTime := 0, lastFlush := 0 }
    (by decide) rfl
  refine ⟨h.1, ?_⟩
  exact (h.2 (⟨[9, 10], 2, 86400, 100000⟩ : ManagerState) (by decide)).1

/-- Claim C10, confirmed: when the handle is null, LogFile::append
returns at once with the state unchanged; when the handle is open and
the retry loop finishes (by draining the request or by hitting a stream
error), written_bytes_ grows by exactly the full requested length, even
if the stream accepted fewer bytes. -/
theorem claim_C10_append_counts_full_length (w : Nat → Nat) (e : Nat → Bool)
    (fuel : Nat) (f f2 : LogFile) (len : Nat)
    (h : LogFile.append w e fuel f len = some f2) :
    (f.fpOpen = false → f2 = f) ∧
    (f.fpOpen = true → f2.written_bytes = f.written_bytes + len ∧
      f2.fpOpen = true) := by
  simp only [LogFile.append] at h
  by_cases hfp : f.fpOpen = false
  · rw [if_pos hfp] at h
    refine ⟨fun _ => (Option.some.inj h).symm, fun htrue => ?_⟩
    rw [hfp] at htrue
    exact absurd htrue (by decide)
  · rw [if_neg hfp] at h
    cases hm : LogFile.writeLoop w e fuel 1 (min (w 0) len) (len - min (w 0) len) with
    | none =>
      rw [hm] at h
      exact absurd h (by simp)
    | some n =>
      rw [hm] at h
      have h2 := (Option.some.inj h).symm
      subst h2
      exact ⟨fun hfalse => absurd hfalse hfp, fun _ => ⟨rfl, by simpa using hfp⟩⟩

/-- Claim C10, witness: an open file with 10 bytes recorded accepts a
5-byte append whose stream writes 2 bytes and then reports an error; the
counter still advances by the full 5 bytes, to 15. -/
theorem claim_C10_witness :
    ({ fpOpen := true, written_bytes := 15 } : LogFile).written_bytes =
      ({ fpOpen := true, written_bytes := 10 } : LogFile).written_bytes + 5 ∧
    ({ fpOpen := true, written_bytes := 15 } : LogFile).fpOpen = true := by
  exact (claim_C10_append_counts_full_length
    (fun i => if i = 0 then 2 else 0) (fun _ => true) 3
    { fpOpen := true, written_bytes := 10 }
    { fpOpen := true, written_bytes := 15 } 5 (by decide)).2 rfl

/-- Claim C1, code bug witnessed: after initLog then uninitLog the
installed output function is still asyncOutput while g_asyncLog has been
reset to null, so the next record commit of a Logger destructor
dereferences the released sink — a crash (none), not a redirect to the
console sink or a silent discard. -/
theorem claim_C1_commit_after_uninit_crashes :
    (uninitLog (initLog globalInit)).gOutput = OutputFunc.asyncOutput ∧
    (uninitLog (initLog globalInit)).gAsyncLog = none ∧
    loggerCommit 10 (uninitLog (initLog globalInit)) [104, 105] = none := by
  refine ⟨rfl, rfl, rfl⟩

end HalcyonLog
